import Mathlib

/-!
Verification of the text-classification pipeline in
`examples/text_classification/tc_dac_bert_ar.ipynb`.

The notebook is orchestration code: it loads a labelled dataframe, drops
rows with missing text, splits into train/test, tokenizes, fine-tunes a
BERT sequence classifier and evaluates with sklearn metrics.  The pieces
implemented outside this repository slice (sklearn `train_test_split`,
the BERT `Tokenizer`, `BERTSequenceClassifier` and sklearn
`classification_report`) are modelled from the specification, as noted
on each definition.
-/

namespace TcDacBertAr

/-- A dataframe row: a text column (missing text is `none`, mirroring a
pandas NaN) and an integer label column. -/
structure Row where
  text : Option String
  label : Nat
deriving DecidableEq, Repr

/-- Embedding of notebook cell 8, `df = df[df[text_col].isna() == False]`:
keeps exactly the rows whose text is not NaN.  Note the source filters
only on `isna`; a present-but-empty string passes the filter. -/
def removeNaText (df : List Row) : List Row :=
  df.filter (fun r => r.text.isSome)

/-- Modelled from the spec: the pseudo-random generator behind the seeded
split (sklearn internals are outside this repository slice).  A linear
congruential step; any deterministic generator fits the contract. -/
def lcg (s : Nat) : Nat :=
  (1103515245 * s + 12345) % 2147483648

/-- Modelled from the spec: seeded shuffle used by the splitter.  Picks a
seed-determined element, moves it to the accumulator and recurses on the
rest; `fuel` bounds the recursion by the list length. -/
def shuffleGo {α : Type} [DecidableEq α] : Nat → Nat → List α → List α → List α
  | 0, _, acc, xs => acc ++ xs
  | _ + 1, _, acc, [] => acc
  | fuel + 1, s, acc, y :: ys =>
    shuffleGo fuel (lcg s)
      ((y :: ys).get ⟨s % (y :: ys).length, Nat.mod_lt _ (Nat.succ_pos _)⟩ :: acc)
      ((y :: ys).erase ((y :: ys).get ⟨s % (y :: ys).length, Nat.mod_lt _ (Nat.succ_pos _)⟩))

/-- Modelled from the spec: deterministic seeded permutation of the rows. -/
def shuffle {α : Type} [DecidableEq α] (seed : Nat) (xs : List α) : List α :=
  shuffleGo xs.length seed [] xs

/-- Modelled from the spec: number of rows assigned to the train side,
`floor` of the fraction times the row count (design note in the spec). -/
def trainCount (f : ℚ) (n : Nat) : Nat :=
  (⌊f * (n : ℚ)⌋).toNat

/-- Modelled from the spec: the Splitter behind notebook cell 14,
`train_test_split(df, train_size=TRAIN_SIZE, random_state=RANDOM_STATE)`
(sklearn, outside this repository slice).  Partitions the rows into a
train prefix and test suffix of a seed-determined permutation; fully
determined by (row order, fraction, seed). -/
def train_test_split {α : Type} [DecidableEq α] (df : List α) (f : ℚ) (seed : Nat) :
    List α × List α :=
  let l := shuffle seed df
  (l.take (trainCount f l.length), l.drop (trainCount f l.length))

/-- Notebook cell 3 configuration constants. -/
def TRAIN_SIZE : ℚ := 4 / 5

def RANDOM_STATE : Nat := 0

def MAX_LEN : Nat := 200

/-- Notebook cell 12: the ordered list of class names. -/
def labels : List String :=
  ["culture", "diverse", "economy", "politics", "sports"]

def num_labels : Nat := labels.length

/-! ### Tokenizer Adapter

The notebook (cells 17 and 19) instantiates `Tokenizer(LANGUAGE, ...)`,
calls `tokenizer.tokenize` on the text lists, and then
`tokenizer.preprocess_classification_tokens(tokens, MAX_LEN)`.  Both
live in `utils_nlp.models.bert.common`, outside this repository slice,
so they are modelled from the spec. -/

/-- The `Language` enumeration imported by the notebook; the notebook
uses `Language.MULTILINGUAL`. -/
inductive Language where
  | english
  | multilingual
  | chinese
deriving DecidableEq, Repr

/-- Reserved id for the sentence-start marker [CLS]. -/
def clsId : Nat := 101

/-- Reserved id for the sentence-end marker [SEP]. -/
def sepId : Nat := 102

/-- Reserved pad id. -/
def padId : Nat := 0

/-- Modelled from the spec: the external vocabulary lookup of the BERT
tokenizer (out of scope).  Any deterministic function of (language,
token) that avoids the reserved ids fits the contract. -/
def vocabId (lang : Language) (w : String) : Nat :=
  (match lang with
    | .english => 1
    | .multilingual => 2
    | .chinese => 3) * 100000 + w.length + 1

/-- Splits a character list into maximal space-free words. -/
def wordsAux : List Char → List Char → List (List Char)
  | [], acc => if acc = [] then [] else [acc.reverse]
  | c :: cs, acc =>
    if c = ' ' then
      if acc = [] then wordsAux cs [] else acc.reverse :: wordsAux cs []
    else
      wordsAux cs (c :: acc)

/-- Modelled from the spec: `tokenizer.tokenize` on a single string
(the external wordpiece segmentation is out of scope).  Deterministic
function of (language, text); the language fixes the vocabulary, not the
segmentation in this model. -/
def tokenize (_lang : Language) (t : String) : List String :=
  (wordsAux t.data []).map (fun cs => String.mk cs)

/-- Modelled from the spec: `preprocess_classification_tokens` on one
token list — prepend [CLS], truncate the content to max_len - 2, append
[SEP], convert to vocabulary ids, pad with the reserved pad id to
exactly max_len, and emit a parallel 0/1 mask marking real and boundary
tokens. Returns (token ids, input mask). -/
def preprocess_classification_tokens (lang : Language) (maxLen : Nat)
    (tokens : List String) : List Nat × List Nat :=
  let withBounds := clsId :: ((tokens.take (maxLen - 2)).map (vocabId lang) ++ [sepId])
  let ids := withBounds.take maxLen ++ List.replicate (maxLen - withBounds.length) padId
  let mask := List.replicate (min withBounds.length maxLen) 1 ++
    List.replicate (maxLen - withBounds.length) 0
  (ids, mask)

/-- The tokenization pipeline the notebook applies to each text:
`tokenize` followed by `preprocess_classification_tokens`. -/
def tokenizeText (lang : Language) (maxLen : Nat) (t : String) : List Nat × List Nat :=
  preprocess_classification_tokens lang maxLen (tokenize lang t)

/-! ### Classifier Wrapper

`BERTSequenceClassifier` (cells 21, 23, 25) lives in
`utils_nlp.models.bert.sequence_classification`, outside this repository
slice; fit/predict are modelled from the spec.  The transformer
parameters are opaque; they are represented by a list of integers. -/

/-- Model state of the classifier wrapper: opaque transformer plus head
parameters, and the number of labels fixed at construction. -/
structure BERTSequenceClassifier where
  params : List Int
  numLabels : Nat
deriving DecidableEq, Repr

/-- Error taxonomy of the spec relevant to fit/predict. -/
inductive PipelineError where
  | shapeMismatch
deriving DecidableEq, Repr

/-- Modelled from the spec: the opaque per-row score of a label class
(the transformer forward pass is out of scope).  Any deterministic
function of (parameters, row, mask, class) fits the contract. -/
def logitScore (m : BERTSequenceClassifier) (ids mask : List Nat) (c : Nat) : Int :=
  (((ids.zipWith (fun i k => i * k) mask).sum + c) : Int) * (m.params.getD c 1)

/-- Index of the best-scoring class among `0, ..., n-1`. -/
def argmaxScore (f : Nat → Int) (n : Nat) : Nat :=
  (List.range n).foldl (fun b c => if f b < f c then c else b) 0

/-- Modelled from the spec: `classifier.predict(token_ids, input_mask,
...)` — checks the two sequences agree in length (ShapeMismatch
otherwise), then returns one predicted label per row together with the
unchanged model state (predict is read-only on the model). -/
def predict (m : BERTSequenceClassifier) (token_ids input_mask : List (List Nat)) :
    Except PipelineError (List Nat × BERTSequenceClassifier) :=
  if token_ids.length ≠ input_mask.length then
    .error .shapeMismatch
  else
    .ok ((token_ids.zip input_mask).map
      (fun r => argmaxScore (logitScore m r.1 r.2) m.numLabels), m)

/-- Modelled from the spec: `classifier.fit(token_ids, input_mask,
labels, ...)` — checks the shape, then updates the opaque parameters in
a deterministic way (the gradient mechanics are out of scope) and
returns the new model state. -/
def fit (m : BERTSequenceClassifier) (token_ids input_mask : List (List Nat))
    (lbls : List Nat) (num_epochs _batch_size : Nat) :
    Except PipelineError BERTSequenceClassifier :=
  if token_ids.length ≠ input_mask.length then
    .error .shapeMismatch
  else
    .ok { m with
      params := (List.range num_epochs).foldl
        (fun ps _ => ps.map (fun w => w + (lbls.sum : Int))) m.params }

/-! ### Evaluator

`classification_report` and `accuracy_score` (cell 27) are sklearn,
outside this repository slice; modelled from the spec over ℚ.  True and
predicted labels are paired positionally by `zip`. -/

/-- True positives of class `c`: positions where both the true and the
predicted label are `c`. -/
def truePos (y p : List Nat) (c : Nat) : Nat :=
  (y.zip p).countP (fun q => q.1 == c && q.2 == c)

/-- False positives of class `c`: predicted `c`, true label different. -/
def falsePos (y p : List Nat) (c : Nat) : Nat :=
  (y.zip p).countP (fun q => q.2 == c && !(q.1 == c))

/-- False negatives of class `c`: true label `c`, predicted different. -/
def falseNeg (y p : List Nat) (c : Nat) : Nat :=
  (y.zip p).countP (fun q => q.1 == c && !(q.2 == c))

/-- Support of class `c`: number of true instances of that class. -/
def support (y : List Nat) (c : Nat) : Nat :=
  y.countP (fun a => a == c)

/-- Number of positions where the prediction equals the true label. -/
def correctCount (y p : List Nat) : Nat :=
  (y.zip p).countP (fun q => q.1 == q.2)

/-- Modelled from the spec: `accuracy_score` — fraction of positions
where predicted equals true. -/
def accuracy (y p : List Nat) : ℚ :=
  (correctCount y p : ℚ) / (y.length : ℚ)

/-- Per-class precision TP/(TP+FP). -/
def classPrecision (y p : List Nat) (c : Nat) : ℚ :=
  (truePos y p c : ℚ) / ((truePos y p c + falsePos y p c : Nat) : ℚ)

/-- Per-class recall TP/(TP+FN). -/
def classRecall (y p : List Nat) (c : Nat) : ℚ :=
  (truePos y p c : ℚ) / ((truePos y p c + falseNeg y p c : Nat) : ℚ)

/-- Micro-average precision: pooled TP over pooled TP+FP across the
label classes `0, ..., n-1`. -/
def microPrecision (n : Nat) (y p : List Nat) : ℚ :=
  ((∑ c ∈ Finset.range n, truePos y p c : Nat) : ℚ) /
    ((∑ c ∈ Finset.range n, (truePos y p c + falsePos y p c) : Nat) : ℚ)

/-- Micro-average recall: pooled TP over pooled TP+FN. -/
def microRecall (n : Nat) (y p : List Nat) : ℚ :=
  ((∑ c ∈ Finset.range n, truePos y p c : Nat) : ℚ) /
    ((∑ c ∈ Finset.range n, (truePos y p c + falseNeg y p c) : Nat) : ℚ)

/-- Micro-average F1: harmonic mean of micro precision and recall. -/
def microF1 (n : Nat) (y p : List Nat) : ℚ :=
  2 * microPrecision n y p * microRecall n y p /
    (microPrecision n y p + microRecall n y p)

/-- Keys of the metrics report produced by the Evaluator. -/
inductive ReportKey where
  | perClass (c : Nat)
  | macroAvg
  | microAvg
  | weightedAvg
deriving DecidableEq, Repr

/-- Modelled from the spec: the support column of the metrics report —
per-class rows carry the count of true instances of the class, and each
aggregate row carries the sum of the per-class supports over the label
classes `0, ..., n-1`. -/
def reportSupport (n : Nat) (y : List Nat) : ReportKey → Nat
  | .perClass c => support y c
  | .macroAvg => ∑ c ∈ Finset.range n, support y c
  | .microAvg => ∑ c ∈ Finset.range n, support y c
  | .weightedAvg => ∑ c ∈ Finset.range n, support y c

/-! ### Helper lemmas -/

theorem countP_ext {α : Type} (l : List α) (p q : α → Bool) (h : ∀ x, p x = q x) :
    l.countP p = l.countP q := by
  rw [show p = q from funext h]

theorem countP_and_split {α : Type} (l : List α) (p q : α → Bool) :
    l.countP (fun x => p x && q x) + l.countP (fun x => p x && !q x) = l.countP p := by
  induction l with
  | nil => simp
  | cons a t ih =>
    simp only [List.countP_cons]
    cases hp : p a <;> cases hq : q a <;> simp [hp, hq] <;> omega

theorem sum_range_countP_key {α : Type} (n : Nat) (l : List α) (key : α → Nat)
    (h : ∀ x ∈ l, key x < n) :
    ∑ c ∈ Finset.range n, l.countP (fun x => key x == c) = l.length := by
  induction l with
  | nil => simp
  | cons a t ih =>
    simp only [List.countP_cons, List.length_cons]
    rw [Finset.sum_add_distrib, ih (fun x hx => h x (List.mem_cons_of_mem _ hx))]
    have ha : key a < n := h a (List.mem_cons_self _ _)
    have : ∑ c ∈ Finset.range n, (if (key a == c) = true then 1 else 0) = 1 := by
      simp only [beq_iff_eq]
      rw [Finset.sum_ite_eq]
      simp [Finset.mem_range.mpr ha]
    omega

theorem sum_range_countP_diag (n : Nat) (l : List (Nat × Nat))
    (h : ∀ q ∈ l, q.1 < n) :
    ∑ c ∈ Finset.range n, l.countP (fun q => q.1 == c && q.2 == c) =
      l.countP (fun q => q.1 == q.2) := by
  induction l with
  | nil => simp
  | cons a t ih =>
    simp only [List.countP_cons]
    rw [Finset.sum_add_distrib, ih (fun x hx => h x (List.mem_cons_of_mem _ hx))]
    have ha : a.1 < n := h a (List.mem_cons_self _ _)
    by_cases hab : a.1 = a.2
    · have : ∑ c ∈ Finset.range n, (if (a.1 == c && a.2 == c) = true then 1 else 0) = 1 := by
        simp only [← hab, Bool.and_self, beq_iff_eq]
        rw [Finset.sum_ite_eq]
        simp [Finset.mem_range.mpr ha]
      rw [this]
      simp [hab]
    · have : ∑ c ∈ Finset.range n, (if (a.1 == c && a.2 == c) = true then 1 else 0) = 0 := by
        refine Finset.sum_eq_zero (fun c _ => ?_)
        have hne : ¬(a.1 = c ∧ a.2 = c) := by
          rintro ⟨h1, h2⟩
          exact hab (h1.trans h2.symm)
        simp only [Bool.and_eq_true, beq_iff_eq]
        simp [hne]
      rw [this]
      simp [hab]

theorem shuffleGo_perm {α : Type} [DecidableEq α] :
    ∀ (fuel s : Nat) (acc xs : List α), (shuffleGo fuel s acc xs).Perm (acc ++ xs)
  | 0, _, acc, xs => List.Perm.refl _
  | _ + 1, _, acc, [] => by simp [shuffleGo]
  | fuel + 1, s, acc, y :: ys => by
    rw [shuffleGo]
    refine (shuffleGo_perm fuel (lcg s) _ _).trans ?_
    have hmem : (y :: ys).get ⟨s % (y :: ys).length, Nat.mod_lt _ (Nat.succ_pos _)⟩ ∈ y :: ys :=
      List.get_mem _ _ _
    exact List.perm_middle.symm.trans
      (List.Perm.append_left acc (List.perm_cons_erase hmem).symm)

theorem shuffle_perm {α : Type} [DecidableEq α] (seed : Nat) (xs : List α) :
    (shuffle seed xs).Perm xs := by
  simpa using shuffleGo_perm xs.length seed [] xs

theorem train_test_split_perm {α : Type} [DecidableEq α] (df : List α) (f : ℚ) (s : Nat) :
    ((train_test_split df f s).1 ++ (train_test_split df f s).2).Perm df := by
  unfold train_test_split
  simpa using shuffle_perm s df

/-- Helper: for max_len at least 2 the token-id output is [CLS], the
content ids truncated to max_len - 2, [SEP], then padding up to
max_len. -/
theorem tokenizeText_ids_eq (lang : Language) (M : Nat) (T : String) (hM : 2 ≤ M) :
    (tokenizeText lang M T).1 =
      clsId :: (((tokenize lang T).take (M - 2)).map (vocabId lang) ++ [sepId] ++
        List.replicate (M - (((tokenize lang T).take (M - 2)).length + 2)) padId) := by
  unfold tokenizeText preprocess_classification_tokens
  have hwb : (clsId :: (((tokenize lang T).take (M - 2)).map (vocabId lang) ++ [sepId])).length
      ≤ M := by
    simp [List.length_take]
    omega
  simp only [List.take_of_length_le hwb]
  simp [List.append_assoc]

/-- C1 counterexample: a dataset whose single row has present but empty
text.  The notebook filter keeps the row, so Train ∪ Test is that one
row, while the set of rows whose text is neither missing nor empty is
empty — the claim fails. -/
theorem c1_empty_text_row_survives_split :
    ((train_test_split (removeNaText [Row.mk (some "") 0]) TRAIN_SIZE RANDOM_STATE).1 ++
      (train_test_split (removeNaText [Row.mk (some "") 0]) TRAIN_SIZE RANDOM_STATE).2) =
      [Row.mk (some "") 0] ∧
    ([Row.mk (some "") 0]).filter (fun r => r.text.isSome && (r.text.getD "" != "")) = [] := by
  have hsh : shuffle RANDOM_STATE (removeNaText [Row.mk (some "") 0]) =
      [Row.mk (some "") 0] := by decide
  have htc : trainCount TRAIN_SIZE (1 : Nat) = 0 := by
    unfold trainCount TRAIN_SIZE
    norm_num
  constructor
  · simp only [train_test_split, hsh]
    simp [htc]
  · decide

/-- C1 (amended): for every dataset, fraction and seed, Train and Test
are disjoint and together are exactly the rows of the dataset whose
text is not missing — rows with present-but-empty text are retained,
since the notebook filters only on isna. -/
theorem c1_split_partitions_non_missing_rows (D : List Row) (f : ℚ) (s : Nat) :
    (((train_test_split (removeNaText D) f s).1 ++
        (train_test_split (removeNaText D) f s).2).Perm
      (D.filter (fun r => r.text.isSome))) ∧
    ∀ r : Row,
      (train_test_split (removeNaText D) f s).1.count r +
        (train_test_split (removeNaText D) f s).2.count r =
        (D.filter (fun r => r.text.isSome)).count r := by
  have h := train_test_split_perm (removeNaText D) f s
  rw [removeNaText] at h
  refine ⟨h, fun r => ?_⟩
  have := h.count_eq r
  simpa [List.count_append] using this

/-- C2: the split partition is a deterministic function of
(row order, fraction, seed): identical inputs give identical output. -/
theorem c2_split_deterministic (D1 D2 : List Row) (f1 f2 : ℚ) (s1 s2 : Nat)
    (hD : D1 = D2) (hf : f1 = f2) (hs : s1 = s2) :
    train_test_split D1 f1 s1 = train_test_split D2 f2 s2 := by
  subst hD
  subst hf
  subst hs
  rfl

/-- C2 witness: the determinism theorem applied at a concrete dataset,
fraction and seed. -/
theorem c2_split_deterministic_witness :
    train_test_split [Row.mk (some "a") 1, Row.mk (some "b") 0] TRAIN_SIZE RANDOM_STATE =
      train_test_split [Row.mk (some "a") 1, Row.mk (some "b") 0] TRAIN_SIZE RANDOM_STATE :=
  c2_split_deterministic _ _ _ _ _ _ rfl rfl rfl

/-- C3 counterexample: at max_len 1 the non-empty text "a" yields mask
sum 1, so the claimed bound sum(mask) ≥ 2 fails; the claim holds only
once max_len is at least 2. -/
theorem c3_max_len_one_mask_sum_below_two :
    "a" ≠ "" ∧
    (tokenizeText Language.multilingual 1 "a").2.length = 1 ∧
    ¬(2 ≤ (tokenizeText Language.multilingual 1 "a").2.sum) := by
  refine ⟨by decide, by rfl, by decide⟩

/-- C3 (amended): for every text, language and max_len at least 2, the
token-id and mask outputs both have length exactly max_len, the mask sum
is at most max_len, and for non-empty text the mask sum is at least 2
(the two boundary tokens are present). -/
theorem c3_tokenizer_shape (lang : Language) (M : Nat) (T : String) (hM : 2 ≤ M) :
    (tokenizeText lang M T).1.length = M ∧
    (tokenizeText lang M T).2.length = M ∧
    (tokenizeText lang M T).2.sum ≤ M ∧
    (T ≠ "" → 2 ≤ (tokenizeText lang M T).2.sum) := by
  unfold tokenizeText preprocess_classification_tokens
  have hk : ((tokenize lang T).take (M - 2)).length ≤ M - 2 := by
    simp [List.length_take]
  have hwb : (clsId :: (((tokenize lang T).take (M - 2)).map (vocabId lang) ++ [sepId])).length
      = ((tokenize lang T).take (M - 2)).length + 2 := by
    simp
  refine ⟨?_, ?_, ?_, fun _ => ?_⟩
  · simp only [List.length_append, List.length_take, List.length_replicate, hwb]
    omega
  · simp only [List.length_append, List.length_replicate, hwb]
    omega
  · simp only [List.sum_append, List.sum_replicate, smul_eq_mul, mul_one, mul_zero, hwb]
    omega
  · simp only [List.sum_append, List.sum_replicate, smul_eq_mul, mul_one, mul_zero, hwb]
    omega

/-- C3 witness: the shape theorem applied at language multilingual,
max_len 4 and the non-empty text "hi". -/
theorem c3_tokenizer_shape_witness :
    (tokenizeText Language.multilingual 4 "hi").1.length = 4 ∧
    (tokenizeText Language.multilingual 4 "hi").2.length = 4 ∧
    (tokenizeText Language.multilingual 4 "hi").2.sum ≤ 4 ∧
    ("hi" ≠ "" → 2 ≤ (tokenizeText Language.multilingual 4 "hi").2.sum) :=
  c3_tokenizer_shape Language.multilingual 4 "hi" (by decide)

/-- C4: the adapter prepends the reserved [CLS] id and appends the
reserved [SEP] id, so at most max_len - 2 content tokens survive
truncation; and at max_len 3 any text with at least 2 content tokens is
cut to exactly 1 content token between the 2 boundary tokens. -/
theorem c4_boundary_token_budget :
    (∀ (lang : Language) (M : Nat) (T : String), 2 ≤ M →
      (tokenizeText lang M T).1 =
        clsId :: (((tokenize lang T).take (M - 2)).map (vocabId lang) ++ [sepId] ++
          List.replicate (M - (((tokenize lang T).take (M - 2)).length + 2)) padId) ∧
      ((tokenize lang T).take (M - 2)).length ≤ M - 2) ∧
    (∀ (lang : Language) (T : String), 2 ≤ (tokenize lang T).length →
      (tokenizeText lang 3 T).1 =
        clsId :: (((tokenize lang T).take 1).map (vocabId lang) ++ [sepId]) ∧
      ((tokenize lang T).take 1).length = 1) := by
  constructor
  · intro lang M T hM
    refine ⟨tokenizeText_ids_eq lang M T hM, ?_⟩
    simp [List.length_take]
  · intro lang T hT
    have h1 : ((tokenize lang T).take 1).length = 1 := by
      simp [List.length_take]
      omega
    refine ⟨?_, h1⟩
    have h := tokenizeText_ids_eq lang 3 T (by omega)
    rw [h]
    norm_num [h1]

/-- C4 witness: the boundary-token theorem applied at concrete inputs —
max_len 4 with text "a b c", and max_len 3 with the two-token text
"a b". -/
theorem c4_boundary_token_budget_witness :
    ((tokenizeText Language.multilingual 4 "a b c").1 =
        clsId :: (((tokenize Language.multilingual "a b c").take 2).map
            (vocabId Language.multilingual) ++ [sepId] ++
          List.replicate (4 - (((tokenize Language.multilingual "a b c").take 2).length + 2))
            padId) ∧
      ((tokenize Language.multilingual "a b c").take 2).length ≤ 2) ∧
    ((tokenizeText Language.multilingual 3 "a b").1 =
        clsId :: (((tokenize Language.multilingual "a b").take 1).map
          (vocabId Language.multilingual) ++ [sepId]) ∧
      ((tokenize Language.multilingual "a b").take 1).length = 1) :=
  ⟨c4_boundary_token_budget.1 Language.multilingual 4 "a b c" (by decide),
    c4_boundary_token_budget.2 Language.multilingual "a b" (by decide)⟩

/-- C8: tokenization is a deterministic function of (text, language,
max_len): identical inputs give identical output. -/
theorem c8_tokenize_deterministic (T1 T2 : String) (L1 L2 : Language) (M1 M2 : Nat)
    (hT : T1 = T2) (hL : L1 = L2) (hM : M1 = M2) :
    tokenizeText L1 M1 T1 = tokenizeText L2 M2 T2 := by
  subst hT
  subst hL
  subst hM
  rfl

/-- C8 witness: the determinism theorem applied at a concrete text,
language and max_len. -/
theorem c8_tokenize_deterministic_witness :
    tokenizeText Language.multilingual 5 "abc def" =
      tokenizeText Language.multilingual 5 "abc def" :=
  c8_tokenize_deterministic "abc def" "abc def" Language.multilingual Language.multilingual
    5 5 rfl rfl rfl

/-- C5: for equal-length label sequences over the label classes
`0, ..., n-1`, the micro-average precision, recall and F1 of the
Evaluator all equal the plain accuracy. -/
theorem c5_micro_avg_equals_accuracy (n : Nat) (y p : List Nat)
    (hlen : y.length = p.length) (hy : ∀ a ∈ y, a < n) (hp : ∀ a ∈ p, a < n) :
    microPrecision n y p = accuracy y p ∧ microRecall n y p = accuracy y p ∧
    microF1 n y p = accuracy y p := by
  have hzlen : (y.zip p).length = y.length := by
    rw [List.length_zip, hlen, Nat.min_self]
  have hfst : ∀ q ∈ y.zip p, q.1 < n := by
    rintro ⟨a, b⟩ hq
    exact hy a (List.of_mem_zip hq).1
  have hsnd : ∀ q ∈ y.zip p, q.2 < n := by
    rintro ⟨a, b⟩ hq
    exact hp b (List.of_mem_zip hq).2
  have hTP : ∑ c ∈ Finset.range n, truePos y p c = correctCount y p := by
    unfold truePos correctCount
    exact sum_range_countP_diag n (y.zip p) hfst
  have hPden : ∑ c ∈ Finset.range n, (truePos y p c + falsePos y p c) = y.length := by
    have hper : ∀ c, truePos y p c + falsePos y p c =
        (y.zip p).countP (fun q => q.2 == c) := by
      intro c
      unfold truePos falsePos
      rw [countP_ext (y.zip p) (fun q => q.1 == c && q.2 == c)
        (fun q => q.2 == c && q.1 == c) (fun q => Bool.and_comm _ _)]
      exact countP_and_split (y.zip p) (fun q => q.2 == c) (fun q => q.1 == c)
    calc ∑ c ∈ Finset.range n, (truePos y p c + falsePos y p c)
        = ∑ c ∈ Finset.range n, (y.zip p).countP (fun q => q.2 == c) :=
          Finset.sum_congr rfl (fun c _ => hper c)
      _ = (y.zip p).length := sum_range_countP_key n (y.zip p) (fun q => q.2) hsnd
      _ = y.length := hzlen
  have hRden : ∑ c ∈ Finset.range n, (truePos y p c + falseNeg y p c) = y.length := by
    have hper : ∀ c, truePos y p c + falseNeg y p c =
        (y.zip p).countP (fun q => q.1 == c) := by
      intro c
      unfold truePos falseNeg
      exact countP_and_split (y.zip p) (fun q => q.1 == c) (fun q => q.2 == c)
    calc ∑ c ∈ Finset.range n, (truePos y p c + falseNeg y p c)
        = ∑ c ∈ Finset.range n, (y.zip p).countP (fun q => q.1 == c) :=
          Finset.sum_congr rfl (fun c _ => hper c)
      _ = (y.zip p).length := sum_range_countP_key n (y.zip p) (fun q => q.1) hfst
      _ = y.length := hzlen
  have hP : microPrecision n y p = accuracy y p := by
    unfold microPrecision accuracy
    rw [hTP, hPden]
  have hR : microRecall n y p = accuracy y p := by
    unfold microRecall accuracy
    rw [hTP, hRden]
  refine ⟨hP, hR, ?_⟩
  unfold microF1
  rw [hP, hR]
  by_cases hacc : accuracy y p = 0
  · rw [hacc]
    norm_num
  · have h2 : accuracy y p + accuracy y p ≠ 0 := by
      intro h
      apply hacc
      linarith
    rw [div_eq_iff h2]
    ring

/-- C5 witness: the micro-average theorem applied at the concrete
label sequences of the end-to-end scenario. -/
theorem c5_micro_avg_equals_accuracy_witness :
    microPrecision 5 [4, 0, 0, 4, 0] [4, 0, 0, 4, 1] =
      accuracy [4, 0, 0, 4, 0] [4, 0, 0, 4, 1] ∧
    microRecall 5 [4, 0, 0, 4, 0] [4, 0, 0, 4, 1] =
      accuracy [4, 0, 0, 4, 0] [4, 0, 0, 4, 1] ∧
    microF1 5 [4, 0, 0, 4, 0] [4, 0, 0, 4, 1] =
      accuracy [4, 0, 0, 4, 0] [4, 0, 0, 4, 1] :=
  c5_micro_avg_equals_accuracy 5 [4, 0, 0, 4, 0] [4, 0, 0, 4, 1]
    (by decide) (by decide) (by decide)

/-- C6: on true labels [4,0,0,4,0] and predictions [4,0,0,4,1] the
Evaluator reports accuracy 4/5, recall 2/3 for class 0 (named
"culture"), and support 3 for class 0. -/
theorem c6_concrete_metrics :
    labels.getD 0 "x" = "culture" ∧
    accuracy [4, 0, 0, 4, 0] [4, 0, 0, 4, 1] = 4 / 5 ∧
    classRecall [4, 0, 0, 4, 0] [4, 0, 0, 4, 1] 0 = 2 / 3 ∧
    support [4, 0, 0, 4, 0] 0 = 3 := by
  refine ⟨by decide, ?_, ?_, by decide⟩
  · have h1 : correctCount [4, 0, 0, 4, 0] [4, 0, 0, 4, 1] = 4 := by decide
    unfold accuracy
    rw [h1]
    norm_num
  · have h2 : truePos [4, 0, 0, 4, 0] [4, 0, 0, 4, 1] 0 = 2 := by decide
    have h3 : falseNeg [4, 0, 0, 4, 0] [4, 0, 0, 4, 1] 0 = 1 := by decide
    unfold classRecall
    rw [h2, h3]
    norm_num

/-- C7: predict is read-only on the model state: after any successful
fit, a successful predict returns the model unchanged, and calling
predict again on the same inputs returns the identical labels and the
identical state. -/
theorem c7_predict_read_only (m0 m1 : BERTSequenceClassifier)
    (tids tmask : List (List Nat)) (lbls : List Nat) (ne bs : Nat)
    (pids pmask : List (List Nat)) (out : List Nat) (m2 : BERTSequenceClassifier)
    (_hfit : fit m0 tids tmask lbls ne bs = .ok m1)
    (hpred : predict m1 pids pmask = .ok (out, m2)) :
    m2 = m1 ∧ predict m2 pids pmask = .ok (out, m1) := by
  unfold predict at hpred ⊢
  split_ifs at hpred ⊢ with hc
  simp only [Except.ok.injEq, Prod.mk.injEq] at hpred
  obtain ⟨hout, hm⟩ := hpred
  subst hm
  subst hout
  exact ⟨rfl, rfl⟩

/-- C7 witness: the read-only theorem applied to a concrete model,
training call and prediction call. -/
theorem c7_predict_read_only_witness :
    (⟨[1], 5⟩ : BERTSequenceClassifier) = ⟨[1], 5⟩ ∧
    predict ⟨[1], 5⟩ [[1, 2]] [[1, 1]] = .ok ([4], ⟨[1], 5⟩) :=
  c7_predict_read_only ⟨[1], 5⟩ ⟨[1], 5⟩ [[1]] [[1]] [0] 1 32 [[1, 2]] [[1, 1]]
    [4] ⟨[1], 5⟩ (by rfl) (by rfl)

/-- C9: predict and fit fail with ShapeMismatch exactly when the
token-id and input-mask sequences disagree in length; with equal
lengths no ShapeMismatch arises.  The error is returned, never
retried. -/
theorem c9_shape_mismatch_iff (m : BERTSequenceClassifier)
    (tids tmask : List (List Nat)) (lbls : List Nat) (ne bs : Nat) :
    (predict m tids tmask = .error .shapeMismatch ↔ tids.length ≠ tmask.length) ∧
    (fit m tids tmask lbls ne bs = .error .shapeMismatch ↔ tids.length ≠ tmask.length) := by
  constructor
  · unfold predict
    by_cases h : tids.length ≠ tmask.length <;> simp [h]
  · unfold fit
    by_cases h : tids.length ≠ tmask.length <;> simp [h]

/-- C10: when every true label lies in the label classes `0, ..., n-1`,
the per-class support values of the report sum to the number of
evaluated examples, and the support of each aggregate key equals that
same total. -/
theorem c10_support_totals (n : Nat) (y : List Nat) (hy : ∀ a ∈ y, a < n) :
    (∑ c ∈ Finset.range n, reportSupport n y (.perClass c)) = y.length ∧
    reportSupport n y .macroAvg = y.length ∧
    reportSupport n y .microAvg = y.length ∧
    reportSupport n y .weightedAvg = y.length := by
  have key : ∑ c ∈ Finset.range n, support y c = y.length := by
    unfold support
    exact sum_range_countP_key n y (fun a => a) hy
  exact ⟨key, key, key, key⟩

/-- C10 witness: the support-total theorem applied at the concrete true
labels of the end-to-end scenario. -/
theorem c10_support_totals_witness :
    (∑ c ∈ Finset.range 5, reportSupport 5 [4, 0, 0, 4, 0] (.perClass c)) = 5 ∧
    reportSupport 5 [4, 0, 0, 4, 0] .macroAvg = 5 ∧
    reportSupport 5 [4, 0, 0, 4, 0] .microAvg = 5 ∧
    reportSupport 5 [4, 0, 0, 4, 0] .weightedAvg = 5 :=
  c10_support_totals 5 [4, 0, 0, 4, 0] (by decide)

end TcDacBertAr
